import Mathlib

/-!
Verification of the heuristic JSON-tree extraction engine of the
uber-eats-scraper repository (`src/extractors/restaurant_parser.py`,
`src/extractors/menu_parser.py`, `src/extractors/utils_location.py`).

JSON values are shallowly embedded as a tagged variant; Python dicts become
ordered field lists (insertion order preserved, as `dict` iteration order),
Python numbers become rationals, and Python `None` becomes `Json.null`.
Python truthiness (`or` chains, `if not x`) is modelled explicitly.
-/

mutual

inductive Json where
  | null : Json
  | bool : Bool → Json
  | num : Rat → Json
  | str : String → Json
  | arr : JsonList → Json
  | obj : JsonFields → Json
deriving DecidableEq

inductive JsonList where
  | nil : JsonList
  | cons : Json → JsonList → JsonList
deriving DecidableEq

inductive JsonFields where
  | nil : JsonFields
  | cons : String → Json → JsonFields → JsonFields
deriving DecidableEq

end

def JsonList.toList : JsonList → List Json
  | .nil => []
  | .cons x xs => x :: xs.toList

def JsonFields.toList : JsonFields → List (String × Json)
  | .nil => []
  | .cons k v tl => (k, v) :: tl.toList

def JsonList.ofList : List Json → JsonList
  | [] => .nil
  | x :: xs => .cons x (JsonList.ofList xs)

def JsonFields.ofList : List (String × Json) → JsonFields
  | [] => .nil
  | (k, v) :: tl => .cons k v (JsonFields.ofList tl)

/-- Convenience constructor for a JSON array literal. -/
def jarr (l : List Json) : Json := .arr (JsonList.ofList l)

/-- Convenience constructor for a JSON object literal. -/
def jobj (l : List (String × Json)) : Json := .obj (JsonFields.ofList l)

/-- Python `key in d` / `d.get(key)`: first binding of `key` (dict keys are
unique, so first = only). Returns `none` when the key is absent. -/
def jsonGet : JsonFields → String → Option Json
  | .nil, _ => none
  | .cons k v tl, key => if k == key then some v else jsonGet tl key

/-- Python `d.get(key)`, where an absent key yields `None` (`Json.null`). -/
def jsonGetD (fs : JsonFields) (key : String) : Json :=
  (jsonGet fs key).getD .null

/-- Python truthiness of a JSON value: `None`, `False`, `0`, `""`, `[]`, `{}`
are falsy, everything else is truthy. -/
def truthy : Json → Bool
  | .null => false
  | .bool b => b
  | .num q => q != 0
  | .str s => s != ""
  | .arr .nil => false
  | .arr _ => true
  | .obj .nil => false
  | .obj _ => true

/-- Python `a or b`: `a` when truthy, else `b`. -/
def pyOr (a b : Json) : Json := if truthy a then a else b

/-- Python `isinstance(x, dict)`. -/
def isObjJ : Json → Bool
  | .obj _ => true
  | _ => false

/-- Python `isinstance(x, str)`. -/
def isStrJ : Json → Bool
  | .str _ => true
  | _ => false

/-- Python `isinstance(x, (int, float))`.  NOTE: Python `bool` is a subclass
of `int`, so booleans pass this test too. -/
def isPyNumeric : Json → Bool
  | .num _ => true
  | .bool _ => true
  | _ => false

/-- Scalar (non-container) JSON values. -/
def isScalarJ : Json → Bool
  | .arr _ => false
  | .obj _ => false
  | _ => true

/-- `for k in keys: if k in n: return n[k]` — the value of the first
candidate key (in the caller's priority order) present on the object,
even when that value is `null`. -/
def firstKeyHit (fs : JsonFields) : List String → Option Json
  | [] => none
  | k :: ks =>
    match jsonGet fs k with
    | some v => some v
    | none => firstKeyHit fs ks

mutual

/-- `RestaurantParser._find_first_value._walk` from
`src/extractors/restaurant_parser.py`: on a dict, return the first
candidate key's value if any candidate key is present (even a `None`
value); otherwise recurse into the dict's values, keeping the first
non-`None` result; on a list, recurse elementwise keeping the first
non-`None` result; scalars yield `None`. -/
def find_first_value_walk (keys : List String) : Json → Json
  | .obj fs =>
    match firstKeyHit fs keys with
    | some v => v
    | none => find_first_value_fields keys fs
  | .arr xs => find_first_value_items keys xs
  | _ => .null

def find_first_value_fields (keys : List String) : JsonFields → Json
  | .nil => .null
  | .cons _ v tl =>
    match find_first_value_walk keys v with
    | .null => find_first_value_fields keys tl
    | r => r

def find_first_value_items (keys : List String) : JsonList → Json
  | .nil => .null
  | .cons x tl =>
    match find_first_value_walk keys x with
    | .null => find_first_value_items keys tl
    | r => r

end

/-- `RestaurantParser._find_first_value`: `node` is `Optional`; `None`
yields `None`. -/
def find_first_value (node : Option Json) (keys : List String) : Json :=
  match node with
  | none => .null
  | some j => find_first_value_walk keys j

/-- `_find_first_key` from `src/extractors/utils_location.py`: identical
single-key depth-first search (same walk, singleton key list). -/
def find_first_key (node : Json) (key : String) : Json :=
  find_first_value_walk [key] node

mutual

/-- All Objects of a JSON tree in depth-first pre-order (an Object before
the Objects nested in its values), the traversal order every extractor in
the source uses. -/
def preorderObjs : Json → List JsonFields
  | .obj fs => fs :: preorderObjsFields fs
  | .arr xs => preorderObjsItems xs
  | _ => []

def preorderObjsFields : JsonFields → List JsonFields
  | .nil => []
  | .cons _ v tl => preorderObjs v ++ preorderObjsFields tl

def preorderObjsItems : JsonList → List JsonFields
  | .nil => []
  | .cons x tl => preorderObjs x ++ preorderObjsItems tl

end

/-- An Object contains at least one of the candidate keys. -/
def objHasAny (keys : List String) (fs : JsonFields) : Bool :=
  keys.any (fun k => (jsonGet fs k).isSome)

/-- Resolver semantics as the specification words it: the first Object in
depth-first pre-order containing ANY candidate key decides the result,
yielding its first-priority present key's value; `null`/absent otherwise. -/
def specFindFirst (keys : List String) (j : Json) : Json :=
  match (preorderObjs j).find? (objHasAny keys) with
  | some fs => (firstKeyHit fs keys).getD .null
  | none => .null

mutual

/-- No Object anywhere in the tree has its first-priority present candidate
key bound to JSON `null` (the condition under which the source's walk and
the specification's resolver semantics agree). -/
def goodTree (keys : List String) : Json → Bool
  | .obj fs => (firstKeyHit fs keys != some .null) && goodTreeFields keys fs
  | .arr xs => goodTreeItems keys xs
  | _ => true

def goodTreeFields (keys : List String) : JsonFields → Bool
  | .nil => true
  | .cons _ v tl => goodTree keys v && goodTreeFields keys tl

def goodTreeItems (keys : List String) : JsonList → Bool
  | .nil => true
  | .cons x tl => goodTree keys x && goodTreeItems keys tl

end

/-- The candidate test of `parse_location._walk` in
`src/extractors/utils_location.py`: both `latitude` and `longitude` present
with values passing `isinstance(_, (int, float))` (which also accepts
Python booleans). -/
def locQualifies (fs : JsonFields) : Bool :=
  match jsonGet fs "latitude", jsonGet fs "longitude" with
  | some a, some b => isPyNumeric a && isPyNumeric b
  | _, _ => false

mutual

/-- `parse_location._walk`: first qualifying Object in depth-first
pre-order (the `nonlocal candidate` early-exit collapses to this). -/
def parse_location_walk : Json → Option JsonFields
  | .obj fs => if locQualifies fs then some fs else parse_location_walk_fields fs
  | .arr xs => parse_location_walk_items xs
  | _ => none

def parse_location_walk_fields : JsonFields → Option JsonFields
  | .nil => none
  | .cons _ v tl =>
    match parse_location_walk v with
    | some c => some c
    | none => parse_location_walk_fields tl

def parse_location_walk_items : JsonList → Option JsonFields
  | .nil => none
  | .cons x tl =>
    match parse_location_walk x with
    | some c => some c
    | none => parse_location_walk_items tl

end

/-- The dict returned by `parse_location` in
`src/extractors/utils_location.py`. -/
structure LocationRecord where
  address : Json
  city : Json
  postalCode : Json
  country : Json
  latitude : Json
  longitude : Json
  locationType : Json
deriving DecidableEq

/-- `parse_location` from `src/extractors/utils_location.py`. -/
def parse_location (node : Json) : LocationRecord :=
  let loc := (parse_location_walk node).getD JsonFields.nil
  { address := pyOr (pyOr (jsonGetD loc "address") (jsonGetD loc "streetAddress"))
      (jsonGetD loc "line1")
    city := pyOr (pyOr (jsonGetD loc "city") (jsonGetD loc "town")) (jsonGetD loc "locality")
    postalCode := pyOr (jsonGetD loc "postalCode") (jsonGetD loc "zipCode")
    country := pyOr (jsonGetD loc "country") (jsonGetD loc "countryCode")
    latitude := jsonGetD loc "latitude"
    longitude := jsonGetD loc "longitude"
    locationType := pyOr (pyOr (jsonGetD loc "locationType") (jsonGetD loc "type"))
      (.str "DEFAULT") }

/-- The record `parse_location` produces when no candidate Object exists. -/
def nullLocationRecord : LocationRecord :=
  ⟨.null, .null, .null, .null, .null, .null, .str "DEFAULT"⟩

/-- Python `str.strip()`. -/
def pyStrip (cs : List Char) : List Char :=
  ((cs.dropWhile Char.isWhitespace).reverse.dropWhile Char.isWhitespace).reverse

/-- Substring test for a two-character pattern (Python `"AM" in value`). -/
def hasSub2 (a b : Char) : List Char → Bool
  | x :: y :: rest => (x == a && y == b) || hasSub2 a b (y :: rest)
  | _ => false

def digitVal (c : Char) : Option Nat :=
  if c.isDigit then some (c.toNat - 48) else none

/-- A one- or two-digit decimal field, as `strptime`'s `%H`/`%I`/`%M`
directives match it. -/
def parse2 : List Char → Option Nat
  | [c] => digitVal c
  | [c, d] =>
    match digitVal c, digitVal d with
    | some x, some y => some (x * 10 + y)
    | _, _ => none
  | _ => none

/-- Hour and minute fields separated by a colon, with hour restricted to
`[hlo, hhi]` and minute to `[0, 59]`, consuming the whole input (the shape
`strptime` accepts for `%H:%M` and `%I:%M`). -/
def parseHM (cs : List Char) (hlo hhi : Nat) : Option (Nat × Nat) :=
  let hpart := cs.takeWhile (fun c => c != ':')
  match cs.dropWhile (fun c => c != ':') with
  | ':' :: mpart =>
    match parse2 hpart, parse2 mpart with
    | some hv, some mv =>
      if hlo ≤ hv && hv ≤ hhi && mv ≤ 59 then some (hv, mv) else none
    | _, _ => none
  | _ => none

/-- `datetime.strptime(value, "%H:%M")`, reduced to minutes since
midnight. -/
def parse24 (cs : List Char) : Option Nat :=
  match parseHM cs 0 23 with
  | some (h, m) => some (h * 60 + m)
  | none => none

/-- `datetime.strptime(value.upper(), "%I:%M %p")`, reduced to minutes
since midnight; expects the already-uppercased input. -/
def parse12 (cs : List Char) : Option Nat :=
  let tpart := cs.takeWhile (fun c => !c.isWhitespace)
  let rest := cs.dropWhile (fun c => !c.isWhitespace)
  match rest with
  | [] => none
  | _ =>
    let mer := rest.dropWhile Char.isWhitespace
    if mer == ['A', 'M'] || mer == ['P', 'M'] then
      match parseHM tpart 1 12 with
      | some (h, m) =>
        let h24 := if mer == ['A', 'M'] then h % 12 else h % 12 + 12
        some (h24 * 60 + m)
      | none => none
    else none

/-- Python `int(x)` on a float: truncation toward zero. -/
def ratTruncToInt (q : Rat) : Int :=
  if q < 0 then -((-q).floor) else q.floor

/-- `_format_minutes` from `src/extractors/utils_location.py`: Python `//`
and `%` (floor division, nonnegative remainder), hour wrapped modulo 24,
rendered on a 12-hour clock without a leading zero on the hour. -/
def format_minutes (m : Int) : String :=
  let h := m.fdiv 60
  let mm := (m.emod 60).toNat
  let h24 := ((h.emod 24)).toNat
  let hr12 := if h24 % 12 == 0 then 12 else h24 % 12
  let mer := if h24 < 12 then "AM" else "PM"
  toString hr12 ++ ":" ++ (if mm < 10 then "0" else "") ++ toString mm ++ " " ++ mer

/-- The string-parsing core of `_parse_time_to_minutes`: 12-hour form when
an `AM`/`PM` substring is present (case-insensitively), 24-hour `HH:MM`
otherwise. -/
def tryParseTimeString (cs : List Char) : Option Nat :=
  let up := cs.map Char.toUpper
  if hasSub2 'A' 'M' up || hasSub2 'P' 'M' up then parse12 up else parse24 cs

/-- `_parse_time_to_minutes` from `src/extractors/utils_location.py`.
`None` on `None`; numbers (and booleans, which pass `isinstance(value,
(int, float))`) are truncated to an int and taken as minutes directly;
strings are stripped then parsed; anything else — and any parse failure —
yields `(None, None)`. -/
def parse_time_to_minutes : Json → Option Int × Option String
  | .null => (none, none)
  | .bool b =>
    let m : Int := if b then 1 else 0
    (some m, some (format_minutes m))
  | .num q =>
    let m := ratTruncToInt q
    (some m, some (format_minutes m))
  | .str s =>
    match tryParseTimeString (pyStrip s.toList) with
    | some m => (some (m : Int), some (format_minutes (m : Int)))
    | none => (none, none)
  | _ => (none, none)

/-- One section of the day-keyed schedule branch of `parse_hours`:
start/end raw values via falsy-skipping `or` chains, title defaulting to
`"Open"`, emitted only when both times parse. -/
def parse_hours_section (sf : JsonFields) : Option Json :=
  let startRaw := pyOr (jsonGetD sf "start") (jsonGetD sf "openTime")
  let endRaw := pyOr (jsonGetD sf "end") (jsonGetD sf "closeTime")
  let title := pyOr (pyOr (jsonGetD sf "sectionTitle") (jsonGetD sf "label")) (.str "Open")
  match parse_time_to_minutes startRaw, parse_time_to_minutes endRaw with
  | (some sm, sfm), (some em, efm) =>
    some (jobj [("startTime", .num (sm : Rat)), ("endTime", .num (em : Rat)),
      ("sectionTitle", title),
      ("startTimeFormatted", match sfm with | some t => .str t | none => .null),
      ("endTimeFormatted", match efm with | some t => .str t | none => .null)])
  | _, _ => none

/-- The inner loop over a day's sections: non-dict entries skipped,
failed sections dropped. -/
def parse_hours_sections : JsonList → List Json
  | .nil => []
  | .cons s tl =>
    match s with
    | .obj sf =>
      match parse_hours_section sf with
      | some o => o :: parse_hours_sections tl
      | none => parse_hours_sections tl
    | _ => parse_hours_sections tl

/-- The outer loop over `schedule.items()`: a day whose sections value is
not a list is skipped, and a day is emitted only when at least one section
survived. -/
def parse_hours_days : JsonFields → List Json
  | .nil => []
  | .cons day sections tl =>
    match sections with
    | .arr secs =>
      let ns := parse_hours_sections secs
      if ns.isEmpty then parse_hours_days tl
      else jobj [("dayRange", .str day), ("sectionHours", jarr ns)] :: parse_hours_days tl
    | _ => parse_hours_days tl

/-- The part of `parse_hours` after the pre-normalized `hours` check: the
`openingHours` / `schedule` / `hoursOfOperation` truthiness-skipping `or`
chain, `[]` when the result is falsy or not a dict. -/
def parse_hours_rest (node : Json) : List Json :=
  let schedule := pyOr (pyOr (find_first_key node "openingHours")
    (find_first_key node "schedule")) (find_first_key node "hoursOfOperation")
  if !truthy schedule then []
  else
    match schedule with
    | .obj fs => parse_hours_days fs
    | _ => []

/-- `parse_hours` from `src/extractors/utils_location.py`. -/
def parse_hours (node : Json) : List Json :=
  match find_first_key node "hours" with
  | .arr items =>
    if items.toList.all isObjJ then items.toList
    else parse_hours_rest node
  | _ => parse_hours_rest node

/-- `_looks_like_menu_item` from `src/extractors/menu_parser.py`:
`isinstance(node.get("title") or node.get("name"), str)` — a falsy `title`
(absent, `""`, …) defers to `name` — and at least one of the four
price-signal keys present. -/
def looks_like_menu_item (fs : JsonFields) : Bool :=
  let hasTitle := isStrJ (pyOr (jsonGetD fs "title") (jsonGetD fs "name"))
  let hasPrice := ["price", "priceString", "displayPrice", "unitPrice"].any
    (fun k => (jsonGet fs k).isSome)
  hasTitle && hasPrice

/-- Characters Python's `float()` keeps after the source's filter: the
cleaned string, digits and decimal points only. -/
def cleanPriceChars (s : String) : List Char :=
  s.toList.filter (fun c => c.isDigit || c == '.')

/-- Python `float()` applied to a string of digits and dots: at most one
dot and at least one digit, read as a decimal numeral. -/
def parseDotChars (cs : List Char) : Option Rat :=
  let natFromDigits : List Char → Nat := fun l => l.foldl (fun a c => a * 10 + (c.toNat - 48)) 0
  if !cs.any Char.isDigit then none
  else
    match cs.count '.' with
    | 0 => some (mkRat (natFromDigits cs) 1)
    | 1 =>
      let w := cs.takeWhile (fun c => c != '.')
      let f := (cs.dropWhile (fun c => c != '.')).tail
      some (mkRat (natFromDigits w * 10 ^ f.length + natFromDigits f) (10 ^ f.length))
    | _ => none

/-- The string-fallback step of `_extract_price`: strip every character
that is not a digit or a dot, fail on an empty remainder, else parse as a
float. -/
def priceFromString (s : String) : Option Rat :=
  let cleaned := cleanPriceChars s
  if cleaned.isEmpty then none else parseDotChars cleaned

/-- `_extract_price` from `src/extractors/menu_parser.py`.  Step 1 scans
`price`, `unitPrice`, `amount` for the first *present* key (a present key
bound to `None` still wins the scan and leaves `price_raw = None`).  When
`price_raw` is `None` the string fallback runs over the truthiness-skipping
chain `priceString or displayPrice or formattedPrice`.

Modelled from the spec: the numeric branch of `_extract_price` is truncated
out of the observed source right after `if price_raw > 10000:`; per the
spec (section 4.4), a number above the integer-cents threshold 10000 is
divided by 100 and a number at or below it is returned as-is, and a
non-numeric, non-`None` raw value yields null. -/
def extract_price (fs : JsonFields) : Option Rat :=
  match (firstKeyHit fs ["price", "unitPrice", "amount"]).getD .null with
  | .null =>
    match pyOr (pyOr (jsonGetD fs "priceString") (jsonGetD fs "displayPrice"))
        (jsonGetD fs "formattedPrice") with
    | .str s => priceFromString s
    | _ => none
  | .num q => if q > 10000 then some (q / 100) else some q
  | .bool b => some (if b then 1 else 0)
  | _ => none

/-- One normalized menu item. -/
structure MenuItem where
  title : Json
  price : Option Rat
deriving DecidableEq

/-- Modelled from the spec: `_normalize_menu_item` is missing from the
observed source (the file is truncated).  Per the spec (sections 3 and
4.5), each matched node becomes `{title, price, ...}` by field copy-through
of the title and the Price Extractor's result. -/
def normalize_menu_item (fs : JsonFields) : Option MenuItem :=
  some { title := pyOr (jsonGetD fs "title") (jsonGetD fs "name"), price := extract_price fs }

mutual

/-- `extract_menu_items._walk` from `src/extractors/menu_parser.py`:
pre-order collection of every Object that looks like a menu item (the walk
also descends into a matched Object's own values). -/
def extract_menu_items_walk : Json → List MenuItem
  | .obj fs =>
    (if looks_like_menu_item fs then
      match normalize_menu_item fs with
      | some it => [it]
      | none => []
    else []) ++ extract_menu_items_fields fs
  | .arr xs => extract_menu_items_items xs
  | _ => []

def extract_menu_items_fields : JsonFields → List MenuItem
  | .nil => []
  | .cons _ v tl => extract_menu_items_walk v ++ extract_menu_items_fields tl

def extract_menu_items_items : JsonList → List MenuItem
  | .nil => []
  | .cons x tl => extract_menu_items_walk x ++ extract_menu_items_items tl

end

/-- `extract_menu_items` from `src/extractors/menu_parser.py`. -/
def extract_menu_items (root : Json) : List MenuItem :=
  extract_menu_items_walk root

/-- The identity-signal key test of `RestaurantParser._guess_restaurant_node`. -/
def hasSignalKey (fs : JsonFields) : Bool :=
  ["storeUuid", "restaurantUuid", "restaurantId", "merchant"].any
    (fun k => (jsonGet fs k).isSome)

/-- `RestaurantParser._guess_restaurant_node`: collects every dict with a
signal key in pre-order and takes the first; otherwise the root itself when
it is a dict, else `None`. -/
def guess_restaurant_node (root : Json) : Option JsonFields :=
  match ((preorderObjs root).filter hasSignalKey).head? with
  | some fs => some fs
  | none =>
    match root with
    | .obj fs => some fs
    | _ => none

/-- The titles collected from a `categories` list whose elements are not
all strings: for each dict element, `item.get("title") or item.get("name")`
when that is a string. -/
def categoryTitles : JsonList → List String
  | .nil => []
  | .cons x tl =>
    match x with
    | .obj fs =>
      match pyOr (jsonGetD fs "title") (jsonGetD fs "name") with
      | .str s => s :: categoryTitles tl
      | _ => categoryTitles tl
    | _ => categoryTitles tl

/-- All elements are strings (`all(isinstance(v, str) for v in raw)`). -/
def allStringsJ : JsonList → Bool
  | .nil => true
  | .cons x tl => isStrJ x && allStringsJ tl

def stringsOfJ : JsonList → List String
  | .nil => []
  | .cons (.str s) tl => s :: stringsOfJ tl
  | .cons _ tl => stringsOfJ tl

mutual

/-- `RestaurantParser._guess_categories._walk`: a dict with a list-valued
`categories` key returns it when all-strings, else the collected dict
titles when nonempty, else falls through to the dict's values; recursion
keeps the first *truthy* result (`if result:` skips `None` and `[]`). -/
def guess_categories_walk : Json → Option (List String)
  | .obj fs =>
    match jsonGet fs "categories" with
    | some (.arr raw) =>
      if allStringsJ raw then some (stringsOfJ raw)
      else
        match categoryTitles raw with
        | [] => guess_categories_fields fs
        | t :: ts => some (t :: ts)
    | _ => guess_categories_fields fs
  | .arr xs => guess_categories_items xs
  | _ => none

def guess_categories_fields : JsonFields → Option (List String)
  | .nil => none
  | .cons _ v tl =>
    match guess_categories_walk v with
    | some (t :: ts) => some (t :: ts)
    | _ => guess_categories_fields tl

def guess_categories_items : JsonList → Option (List String)
  | .nil => none
  | .cons x tl =>
    match guess_categories_walk x with
    | some (t :: ts) => some (t :: ts)
    | _ => guess_categories_items tl

end

/-- `RestaurantParser._guess_categories`: `found or []`. -/
def guess_categories (node : Json) : List String :=
  match guess_categories_walk node with
  | some l => l
  | none => []

/-- The dict `RestaurantParser._build_restaurant_document` returns. -/
structure RestaurantDocument where
  logoUrl : Json
  name : Json
  categories : List String
  rating : Json
  reviewCount : Json
  currencyCode : Json
  location : LocationRecord
  phoneNumber : Json
  uuid : Json
  hours : List Json
  url : String
  menuItems : List MenuItem
deriving DecidableEq

/-- Python `restaurant_node or root`: `None` and the empty dict both fall
back to `root`. -/
def nodeOrRoot (restNode : Option JsonFields) (root : Json) : Json :=
  pyOr (match restNode with | some fs => .obj fs | none => .null) root

/-- `RestaurantParser._build_restaurant_document` from
`src/extractors/restaurant_parser.py` (the `url` and `include_menu`
arguments passed through; fetching/HTML stages are out of scope). -/
def build_restaurant_document (url : String) (payload : Json) (includeMenu : Bool) :
    RestaurantDocument :=
  let root := payload
  let restNode := guess_restaurant_node root
  let base := nodeOrRoot restNode root
  let name := find_first_value (restNode.map Json.obj) ["name", "title"]
  { logoUrl := find_first_value (some root) ["logoUrl", "heroImage", "imageUrl"]
    name := pyOr name (.str "")
    categories := guess_categories base
    rating := find_first_value (some base) ["rating", "averageRating"]
    reviewCount := find_first_value (some base) ["reviewCount", "ratingCount"]
    currencyCode := find_first_value (some base) ["currencyCode", "currency"]
    location := parse_location base
    phoneNumber := find_first_value (some base) ["phoneNumber", "phone", "contactPhone"]
    uuid := find_first_value (some base) ["uuid", "storeUuid", "restaurantUuid"]
    hours := parse_hours base
    url := url
    menuItems := if includeMenu then extract_menu_items base else [] }

/-- Two-digit zero-padded decimal rendering of `n < 100`. -/
def pad2c (n : Nat) : List Char :=
  if n < 10 then ['0', Char.ofNat (48 + n)]
  else [Char.ofNat (48 + n / 10), Char.ofNat (48 + n % 10)]

/-- The canonical 24-hour `HH:MM` string for `m` minutes since midnight. -/
def fmt24 (m : Nat) : String :=
  ⟨pad2c (m / 60) ++ ':' :: pad2c (m % 60)⟩

/-- The schedule-resolution rule as amended: among `openingHours`,
`schedule`, `hoursOfOperation` (each resolved by the single-key search),
the first TRUTHY value wins; falsy resolved values are passed over. -/
def firstTruthySchedule (node : Json) : Option Json :=
  [find_first_key node "openingHours", find_first_key node "schedule",
    find_first_key node "hoursOfOperation"].find? truthy

/-- Amended specification of `parse_hours` past the pre-normalized `hours`
check: empty when no candidate resolves truthy, the day-keyed
normalization when the winner is an Object, empty for any other shape. -/
def parseHoursSpecRest (node : Json) : List Json :=
  match firstTruthySchedule node with
  | none => []
  | some (.obj fs) => parse_hours_days fs
  | some _ => []

/-- Amended specification of `parse_hours`: a pre-normalized `hours` Array
of Objects passes through unchanged; otherwise the amended resolution
rule applies. -/
def parseHoursSpec (node : Json) : List Json :=
  match find_first_key node "hours" with
  | .arr items =>
    if items.toList.all isObjJ then items.toList
    else parseHoursSpecRest node
  | _ => parseHoursSpecRest node

/-- The end-to-end scenario payload of the specification (section 8):
`{"merchant": {"restaurantUuid": "abc", "name": "Test Diner",
"latitude": 40.1, "longitude": -74.2,
"menu": [{"title": "Burger", "price": 9.99}]}}`. -/
def testPayload : Json :=
  jobj [("merchant", jobj [("restaurantUuid", .str "abc"), ("name", .str "Test Diner"),
    ("latitude", .num (40.1 : Rat)), ("longitude", .num (-74.2 : Rat)),
    ("menu", jarr [jobj [("title", .str "Burger"), ("price", .num (9.99 : Rat))]])])]

def sffList (keys : List String) (l : List JsonFields) : Json :=
  match l.find? (objHasAny keys) with
  | some fs => (firstKeyHit fs keys).getD .null
  | none => .null


/-- A strictly numeric JSON value (a number, not a boolean) — the reading
of "numeric" the original claim uses. -/
def isStrictNum : Json → Bool
  | .num _ => true
  | _ => false

/-- The candidate test the original location claim describes: both
`latitude` and `longitude` present with strictly numeric values. -/
def locQualifiesNum (fs : JsonFields) : Bool :=
  isStrictNum (jsonGetD fs "latitude") && isStrictNum (jsonGetD fs "longitude")

-- ## Theorems ------------------------------------------------------------

theorem specFindFirst_eq_sffList (keys : List String) (j : Json) :
    specFindFirst keys j = sffList keys (preorderObjs j) := rfl

theorem firstKeyHit_isSome (fs : JsonFields) :
    ∀ keys : List String, (firstKeyHit fs keys).isSome = objHasAny keys fs := by
  intro keys
  induction keys with
  | nil => simp [firstKeyHit, objHasAny]
  | cons k ks ih =>
    cases h : jsonGet fs k with
    | some v => simp [firstKeyHit, objHasAny, h]
    | none => simpa [firstKeyHit, objHasAny, h] using ih

theorem ffv_fields_cons (keys : List String) (k : String) (v : Json) (tl : JsonFields) :
    find_first_value_fields keys (.cons k v tl) =
      if find_first_value_walk keys v = .null then find_first_value_fields keys tl
      else find_first_value_walk keys v := by
  cases h : find_first_value_walk keys v <;> simp [find_first_value_fields, h]

theorem ffv_items_cons (keys : List String) (x : Json) (tl : JsonList) :
    find_first_value_items keys (.cons x tl) =
      if find_first_value_walk keys x = .null then find_first_value_items keys tl
      else find_first_value_walk keys x := by
  cases h : find_first_value_walk keys x <;> simp [find_first_value_items, h]

theorem sffList_cons (keys : List String) (fs : JsonFields) (l : List JsonFields) :
    sffList keys (fs :: l) =
      if objHasAny keys fs then (firstKeyHit fs keys).getD .null else sffList keys l := by
  cases h : objHasAny keys fs <;> simp [sffList, List.find?, h]

theorem sffList_append (keys : List String) (l₁ l₂ : List JsonFields) :
    sffList keys (l₁ ++ l₂) =
      match l₁.find? (objHasAny keys) with
      | some fs => (firstKeyHit fs keys).getD .null
      | none => sffList keys l₂ := by
  induction l₁ with
  | nil => simp [List.find?]
  | cons fs tl ih =>
    cases h : objHasAny keys fs with
    | false =>
      simp only [List.cons_append, sffList, List.find?, h]
      simpa [sffList] using ih
    | true => simp [sffList, List.find?, h]

theorem sffList_ne_null (keys : List String) (l : List JsonFields) (fs : JsonFields)
    (hf : l.find? (objHasAny keys) = some fs) (hg : firstKeyHit fs keys ≠ some .null) :
    sffList keys l ≠ .null := by
  have hAny : objHasAny keys fs = true := List.find?_some hf
  have hs : sffList keys l = (firstKeyHit fs keys).getD .null := by simp [sffList, hf]
  rw [hs]
  cases hk : firstKeyHit fs keys with
  | none =>
    rw [← firstKeyHit_isSome fs keys, hk] at hAny
    simp at hAny
  | some v =>
    intro hnull
    rw [Option.getD_some] at hnull
    exact hg (by rw [hk, hnull])

mutual

theorem goodTree_hit (keys : List String) :
    (j : Json) → goodTree keys j = true → ∀ fs ∈ preorderObjs j, firstKeyHit fs keys ≠ some .null
  | .null, _ => by intro fs hfs; simp [preorderObjs] at hfs
  | .bool _, _ => by intro fs hfs; simp [preorderObjs] at hfs
  | .num _, _ => by intro fs hfs; simp [preorderObjs] at hfs
  | .str _, _ => by intro fs hfs; simp [preorderObjs] at hfs
  | .arr xs, h => by
    intro fs hfs
    exact goodTree_hit_items keys xs (by simpa [goodTree] using h) fs (by simpa [preorderObjs] using hfs)
  | .obj f, h => by
    intro fs hfs
    have h2 : (firstKeyHit f keys != some .null) = true ∧ goodTreeFields keys f = true := by
      simpa [goodTree, Bool.and_eq_true] using h
    rw [preorderObjs] at hfs
    rcases List.mem_cons.mp hfs with rfl | hmem
    · simpa [bne_iff_ne] using h2.1
    · exact goodTree_hit_fields keys f h2.2 fs hmem

theorem goodTree_hit_fields (keys : List String) :
    (l : JsonFields) → goodTreeFields keys l = true →
      ∀ fs ∈ preorderObjsFields l, firstKeyHit fs keys ≠ some .null
  | .nil, _ => by intro fs hfs; simp [preorderObjsFields] at hfs
  | .cons k v tl, h => by
    intro fs hfs
    have h2 : goodTree keys v = true ∧ goodTreeFields keys tl = true := by
      simpa [goodTreeFields, Bool.and_eq_true] using h
    rw [preorderObjsFields] at hfs
    rcases List.mem_append.mp hfs with hmem | hmem
    · exact goodTree_hit keys v h2.1 fs hmem
    · exact goodTree_hit_fields keys tl h2.2 fs hmem

theorem goodTree_hit_items (keys : List String) :
    (l : JsonList) → goodTreeItems keys l = true →
      ∀ fs ∈ preorderObjsItems l, firstKeyHit fs keys ≠ some .null
  | .nil, _ => by intro fs hfs; simp [preorderObjsItems] at hfs
  | .cons x tl, h => by
    intro fs hfs
    have h2 : goodTree keys x = true ∧ goodTreeItems keys tl = true := by
      simpa [goodTreeItems, Bool.and_eq_true] using h
    rw [preorderObjsItems] at hfs
    rcases List.mem_append.mp hfs with hmem | hmem
    · exact goodTree_hit keys x h2.1 fs hmem
    · exact goodTree_hit_items keys tl h2.2 fs hmem

end

mutual

theorem ffv_eq_spec (keys : List String) :
    (j : Json) → goodTree keys j = true →
      find_first_value_walk keys j = sffList keys (preorderObjs j)
  | .null, _ => rfl
  | .bool _, _ => rfl
  | .num _, _ => rfl
  | .str _, _ => rfl
  | .arr xs, h => by
    rw [preorderObjs]
    exact ffv_items_eq_spec keys xs (by simpa [goodTree] using h)
  | .obj f, h => by
    have h2 : (firstKeyHit f keys != some .null) = true ∧ goodTreeFields keys f = true := by
      simpa [goodTree, Bool.and_eq_true] using h
    rw [preorderObjs, sffList_cons]
    cases hk : firstKeyHit f keys with
    | some v =>
      have hAny : objHasAny keys f = true := by rw [← firstKeyHit_isSome, hk]; rfl
      simp [find_first_value_walk, hk, hAny]
    | none =>
      have hAny : objHasAny keys f = false := by rw [← firstKeyHit_isSome, hk]; rfl
      simp only [hAny, if_neg Bool.false_ne_true]
      rw [show find_first_value_walk keys (.obj f) = find_first_value_fields keys f from by
        simp [find_first_value_walk, hk]]
      exact ffv_fields_eq_spec keys f h2.2

theorem ffv_fields_eq_spec (keys : List String) :
    (l : JsonFields) → goodTreeFields keys l = true →
      find_first_value_fields keys l = sffList keys (preorderObjsFields l)
  | .nil, _ => rfl
  | .cons k v tl, h => by
    have h2 : goodTree keys v = true ∧ goodTreeFields keys tl = true := by
      simpa [goodTreeFields, Bool.and_eq_true] using h
    rw [preorderObjsFields, sffList_append, ffv_fields_cons]
    have ih1 := ffv_eq_spec keys v h2.1
    have ih2 := ffv_fields_eq_spec keys tl h2.2
    cases hf : (preorderObjs v).find? (objHasAny keys) with
    | none =>
      have : sffList keys (preorderObjs v) = .null := by simp [sffList, hf]
      rw [if_pos (by rw [ih1, this]), ih2]
    | some fs =>
      have hne : sffList keys (preorderObjs v) ≠ .null :=
        sffList_ne_null keys _ fs hf (goodTree_hit keys v h2.1 fs (List.mem_of_find?_eq_some hf))
      rw [if_neg (by rw [ih1]; exact hne), ih1]
      simp [sffList, hf]

theorem ffv_items_eq_spec (keys : List String) :
    (l : JsonList) → goodTreeItems keys l = true →
      find_first_value_items keys l = sffList keys (preorderObjsItems l)
  | .nil, _ => rfl
  | .cons x tl, h => by
    have h2 : goodTree keys x = true ∧ goodTreeItems keys tl = true := by
      simpa [goodTreeItems, Bool.and_eq_true] using h
    rw [preorderObjsItems, sffList_append, ffv_items_cons]
    have ih1 := ffv_eq_spec keys x h2.1
    have ih2 := ffv_items_eq_spec keys tl h2.2
    cases hf : (preorderObjs x).find? (objHasAny keys) with
    | none =>
      have : sffList keys (preorderObjs x) = .null := by simp [sffList, hf]
      rw [if_pos (by rw [ih1, this]), ih2]
    | some fs =>
      have hne : sffList keys (preorderObjs x) ≠ .null :=
        sffList_ne_null keys _ fs hf (goodTree_hit keys x h2.1 fs (List.mem_of_find?_eq_some hf))
      rw [if_neg (by rw [ih1]; exact hne), ih1]
      simp [sffList, hf]

end

/-- C1: REFUTED as stated, then amended.  This counterexample settles the
original claim: in `{"a": {"k": null}, "b": {"k": 1}}` the first Object in
depth-first pre-order containing the candidate key `k` is `{"k": null}`
(so the claimed resolver semantics, `specFindFirst`, yields `null` and
stops there), but `_find_first_value` treats the nested `null` result as
"not found", continues past that Object, and returns `1` from the later
sibling. -/
theorem claim_C1_counterexample :
    find_first_value (some (jobj [("a", jobj [("k", .null)]), ("b", jobj [("k", .num 1)])]))
        ["k"] = .num 1 ∧
    specFindFirst ["k"] (jobj [("a", jobj [("k", .null)]), ("b", jobj [("k", .num 1)])]) =
        .null ∧
    Json.num 1 ≠ Json.null :=
  ⟨rfl, rfl, fun h => Json.noConfusion h⟩

/-- C1 (amended): provided no Object in the tree has its first-priority
present candidate key bound to JSON `null` (`goodTree`), `_find_first_value`
returns the value of the first-priority candidate key present on the first
Object encountered in depth-first pre-order that contains any candidate
key, returning immediately at that Object, and returns `null`/absent when
no Object contains any candidate key — exactly `specFindFirst`. -/
theorem claim_C1_amended (keys : List String) (j : Json) (h : goodTree keys j = true) :
    find_first_value (some j) keys = specFindFirst keys j := by
  rw [specFindFirst_eq_sffList]
  exact ffv_eq_spec keys j h

/-- C1 witness: the amended theorem applied at a concrete tree. -/
theorem claim_C1_witness :
    goodTree ["k"] (jobj [("a", jobj [("k", .num 2)])]) = true ∧
    find_first_value (some (jobj [("a", jobj [("k", .num 2)])])) ["k"] =
      specFindFirst ["k"] (jobj [("a", jobj [("k", .num 2)])]) :=
  ⟨rfl, claim_C1_amended ["k"] (jobj [("a", jobj [("k", .num 2)])]) rfl⟩

/-- C2: CONFIRMED (with the truncated `_normalize_menu_item` and
numeric-price branch modelled from the spec).  The end-to-end scenario
payload yields a document whose uuid is `"abc"`, whose name is
`"Test Diner"`, whose location latitude is `40.1`, and whose menu items
are exactly one item titled `"Burger"` priced `9.99`. -/
theorem claim_C2_end_to_end :
    (build_restaurant_document "u" testPayload true).uuid = .str "abc" ∧
    (build_restaurant_document "u" testPayload true).name = .str "Test Diner" ∧
    (build_restaurant_document "u" testPayload true).location.latitude = .num (40.1 : Rat) ∧
    (build_restaurant_document "u" testPayload true).menuItems =
      [⟨.str "Burger", some (9.99 : Rat)⟩] := by
  have h1 : (40.1 : Rat) = mkRat 401 10 := by norm_num
  have h2 : (9.99 : Rat) = mkRat 999 100 := by norm_num
  have h3 : (-74.2 : Rat) = mkRat (-742) 10 := by rw [Rat.mkRat_eq_div]; norm_num
  simp only [testPayload, h1, h2, h3]
  exact ⟨rfl, rfl, rfl, rfl⟩

/-- C3: REFUTED as stated, then amended.  The claim says a string-valued
`title` plus a price key makes a menu item; but `{"title": "", "price": 1}`
has a string-valued `title` (the empty string) and a price key, and
`_looks_like_menu_item` still returns `False`, because
`node.get("title") or node.get("name")` skips the falsy empty string and
falls through to the absent `name`. -/
theorem claim_C3_counterexample :
    looks_like_menu_item (JsonFields.ofList [("title", .str ""), ("price", .num 1)]) = false ∧
    isStrJ (jsonGetD (JsonFields.ofList [("title", .str ""), ("price", .num 1)]) "title") = true ∧
    (jsonGet (JsonFields.ofList [("title", .str ""), ("price", .num 1)]) "price").isSome = true :=
  ⟨rfl, rfl, rfl⟩

/-- C3 (amended): `_looks_like_menu_item` is true iff EITHER the `title`
value is truthy and a string OR the `title` value is falsy (absent, empty,
zero, …) and the `name` value is a string, AND at least one of the four
price-signal keys is present — presence only, independent of the price
value's validity. -/
theorem claim_C3_amended (fs : JsonFields) :
    looks_like_menu_item fs = true ↔
      (((truthy (jsonGetD fs "title") = true ∧ isStrJ (jsonGetD fs "title") = true) ∨
        (truthy (jsonGetD fs "title") = false ∧ isStrJ (jsonGetD fs "name") = true)) ∧
       (∃ k ∈ ["price", "priceString", "displayPrice", "unitPrice"],
         (jsonGet fs k).isSome = true)) := by
  have h1 : isStrJ (pyOr (jsonGetD fs "title") (jsonGetD fs "name")) = true ↔
      ((truthy (jsonGetD fs "title") = true ∧ isStrJ (jsonGetD fs "title") = true) ∨
       (truthy (jsonGetD fs "title") = false ∧ isStrJ (jsonGetD fs "name") = true)) := by
    cases ht : truthy (jsonGetD fs "title") <;> simp [pyOr, ht]
  rw [looks_like_menu_item, Bool.and_eq_true, h1, List.any_eq_true]

mutual

theorem loc_walk_eq_find :
    (j : Json) → parse_location_walk j = (preorderObjs j).find? locQualifies
  | .null => rfl
  | .bool _ => rfl
  | .num _ => rfl
  | .str _ => rfl
  | .arr xs => by
    rw [preorderObjs, parse_location_walk]
    exact loc_items_eq_find xs
  | .obj fs => by
    rw [preorderObjs, parse_location_walk]
    cases h : locQualifies fs with
    | true => simp [List.find?, h]
    | false =>
      simp only [List.find?, h, Bool.false_eq_true, if_false]
      exact loc_fields_eq_find fs

theorem loc_fields_eq_find :
    (l : JsonFields) → parse_location_walk_fields l = (preorderObjsFields l).find? locQualifies
  | .nil => rfl
  | .cons k v tl => by
    rw [preorderObjsFields, List.find?_append, parse_location_walk_fields,
      loc_walk_eq_find v, loc_fields_eq_find tl]
    cases hf : (preorderObjs v).find? locQualifies <;> simp [Option.or]

theorem loc_items_eq_find :
    (l : JsonList) → parse_location_walk_items l = (preorderObjsItems l).find? locQualifies
  | .nil => rfl
  | .cons x tl => by
    rw [preorderObjsItems, List.find?_append, parse_location_walk_items,
      loc_walk_eq_find x, loc_items_eq_find tl]
    cases hf : (preorderObjs x).find? locQualifies <;> simp [Option.or]

end

theorem locQualifies_numeric (fs : JsonFields) (h : locQualifies fs = true) :
    isPyNumeric (jsonGetD fs "latitude") = true ∧ isPyNumeric (jsonGetD fs "longitude") = true := by
  unfold locQualifies at h
  cases h1 : jsonGet fs "latitude" <;> cases h2 : jsonGet fs "longitude" <;>
    rw [h1, h2] at h <;> simp_all [jsonGetD]

/-- C4: REFUTED as stated, then amended.  `isinstance(x, (int, float))`
accepts Python booleans, so in
`{"a": {"latitude": true, "longitude": 2}, "b": {"latitude": 1,
"longitude": 2}}` the walk stops at the boolean-bearing Object `a` and the
returned latitude is the non-numeric `true`, while the first Object in
depth-first order with both coordinates strictly numeric is `b` (latitude
`1`). -/
theorem claim_C4_counterexample :
    (parse_location (jobj [("a", jobj [("latitude", .bool true), ("longitude", .num 2)]),
        ("b", jobj [("latitude", .num 1), ("longitude", .num 2)])])).latitude = .bool true ∧
    (preorderObjs (jobj [("a", jobj [("latitude", .bool true), ("longitude", .num 2)]),
        ("b", jobj [("latitude", .num 1), ("longitude", .num 2)])])).find? locQualifiesNum =
      some (JsonFields.ofList [("latitude", .num 1), ("longitude", .num 2)]) ∧
    isStrictNum (Json.bool true) = false :=
  ⟨rfl, rfl, rfl⟩

/-- C4 (amended): the walk stops at the first Object in depth-first
pre-order having both `latitude` and `longitude` with numeric-or-boolean
values (Python's `isinstance(_, (int, float))` admits booleans); both
coordinates are then read from that same single Object; when no such
Object exists every field of the record is null except `locationType`,
which is `"DEFAULT"`; and a non-null latitude occurs only when such an
Object was found. -/
theorem claim_C4_amended (j : Json) :
    parse_location_walk j = (preorderObjs j).find? locQualifies ∧
    ((preorderObjs j).find? locQualifies = none → parse_location j = nullLocationRecord) ∧
    (∀ fs, (preorderObjs j).find? locQualifies = some fs →
      (parse_location j).latitude = jsonGetD fs "latitude" ∧
      (parse_location j).longitude = jsonGetD fs "longitude" ∧
      isPyNumeric (jsonGetD fs "latitude") = true ∧
      isPyNumeric (jsonGetD fs "longitude") = true) ∧
    ((parse_location j).latitude ≠ .null → (preorderObjs j).find? locQualifies ≠ none) := by
  refine ⟨loc_walk_eq_find j, ?_, ?_, ?_⟩
  · intro h
    simp [parse_location, loc_walk_eq_find, h, jsonGetD, jsonGet, pyOr, truthy,
      nullLocationRecord]
  · intro fs hf
    have hq := List.find?_some hf
    have hnum := locQualifies_numeric fs hq
    refine ⟨?_, ?_, hnum.1, hnum.2⟩ <;>
      simp [parse_location, loc_walk_eq_find, hf, jsonGetD]
  · intro hlat
    cases hf : (preorderObjs j).find? locQualifies with
    | none =>
      exfalso
      apply hlat
      simp [parse_location, loc_walk_eq_find, hf, jsonGetD, jsonGet]
    | some fs => simp

/-- C4 witness: the amended theorem applied at a tree with one qualifying
Object, discharging the conditional conjuncts there. -/
theorem claim_C4_witness :
    (preorderObjs (jobj [("latitude", .num 1), ("longitude", .num 2)])).find? locQualifies =
      some (JsonFields.ofList [("latitude", .num 1), ("longitude", .num 2)]) ∧
    (parse_location (jobj [("latitude", .num 1), ("longitude", .num 2)])).latitude =
      jsonGetD (JsonFields.ofList [("latitude", .num 1), ("longitude", .num 2)]) "latitude" :=
  ⟨rfl, ((claim_C4_amended (jobj [("latitude", .num 1), ("longitude", .num 2)])).2.2.1
    (JsonFields.ofList [("latitude", .num 1), ("longitude", .num 2)]) rfl).1⟩

theorem firstTruthy3 (a b c : Json) :
    [a, b, c].find? truthy =
      (if truthy (pyOr (pyOr a b) c) then some (pyOr (pyOr a b) c) else none) := by
  cases ha : truthy a <;> cases hb : truthy b <;> cases hc : truthy c <;>
    simp [pyOr, List.find?, ha, hb, hc]

theorem parse_hours_rest_eq_spec (node : Json) :
    parse_hours_rest node = parseHoursSpecRest node := by
  unfold parse_hours_rest parseHoursSpecRest firstTruthySchedule
  rw [firstTruthy3]
  cases h : truthy (pyOr (pyOr (find_first_key node "openingHours")
      (find_first_key node "schedule")) (find_first_key node "hoursOfOperation"))
  · simp [h]
  · cases hs : pyOr (pyOr (find_first_key node "openingHours")
        (find_first_key node "schedule")) (find_first_key node "hoursOfOperation") <;>
      simp_all

/-- C5: REFUTED as stated, then amended.  "First found wins" fails: with
`{"openingHours": {}, "schedule": {"Monday": [{"start": "04:00", "end":
"10:59"}]}}` the key `openingHours` is found first and resolves to an
empty Object, so the claim predicts an empty result (an Object keyed by
day name with zero days); but the code's `or` chain skips the falsy empty
Object and normalizes the `schedule` entry instead. -/
theorem claim_C5_counterexample :
    find_first_key (jobj [("openingHours", jobj []),
      ("schedule", jobj [("Monday", jarr [jobj [("start", .str "04:00"),
        ("end", .str "10:59")]])])]) "openingHours" = jobj [] ∧
    parse_hours (jobj [("openingHours", jobj []),
      ("schedule", jobj [("Monday", jarr [jobj [("start", .str "04:00"),
        ("end", .str "10:59")]])])]) =
      [jobj [("dayRange", .str "Monday"), ("sectionHours", jarr [jobj
        [("startTime", .num 240), ("endTime", .num 659), ("sectionTitle", .str "Open"),
         ("startTimeFormatted", .str "4:00 AM"), ("endTimeFormatted", .str "10:59 AM")]])]] ∧
    [jobj [("dayRange", .str "Monday"), ("sectionHours", jarr [jobj
      [("startTime", .num 240), ("endTime", .num 659), ("sectionTitle", .str "Open"),
       ("startTimeFormatted", .str "4:00 AM"), ("endTimeFormatted", .str "10:59 AM")]])]] ≠
      ([] : List Json) :=
  ⟨rfl, rfl, fun h => List.noConfusion h⟩

/-- C5 (amended): `parse_hours` equals the amended resolution rule: a
single-key search for `hours` yielding an Array of Objects passes through
as-is; otherwise among `openingHours`, `schedule`, `hoursOfOperation` the
first candidate resolving to a TRUTHY value wins (falsy resolved values —
null, empty Object or Array, `""`, `0`, `false` — are passed over); if no
candidate is truthy the result is empty, and a truthy winner of any shape
other than an Object also yields the empty sequence. -/
theorem claim_C5_amended (node : Json) : parse_hours node = parseHoursSpec node := by
  unfold parse_hours parseHoursSpec
  cases hr : find_first_key node "hours" <;> simp [parse_hours_rest_eq_spec]

/-- C7: REFUTED as stated, then amended.  "Checks the string keys in
priority order" fails on present-but-falsy values: in `{"priceString": "",
"displayPrice": "$5"}` the found `priceString` is the empty string, whose
cleaned form has no digits, so the claim predicts null; but the code's
`or` chain skips the falsy empty string and parses `displayPrice`,
returning `5.0`. -/
theorem claim_C7_counterexample :
    jsonGet (JsonFields.ofList [("priceString", .str ""), ("displayPrice", .str "$5")])
      "priceString" = some (.str "") ∧
    priceFromString "" = none ∧
    extract_price (JsonFields.ofList [("priceString", .str ""), ("displayPrice", .str "$5")]) =
      some (5 : Rat) ∧
    some (5 : Rat) ≠ (none : Option Rat) :=
  ⟨rfl, rfl, rfl, fun h => Option.noConfusion h⟩

/-- C7 (amended): when the numeric-key scan over `price`, `unitPrice`,
`amount` leaves `price_raw = None`, the fallback takes the first TRUTHY
value of `priceString`, `displayPrice`, `formattedPrice` (falsy values
such as `""` are passed over); if that value is a string the result is the
strip-and-parse of it (null when no digits survive the stripping or the
cleaned string does not parse), and if it is not a string the result is
null; in particular `{"priceString": "$12.50"}` yields `12.50`. -/
theorem claim_C7_amended (fs : JsonFields)
    (h : (firstKeyHit fs ["price", "unitPrice", "amount"]).getD .null = .null) :
    (∀ s, pyOr (pyOr (jsonGetD fs "priceString") (jsonGetD fs "displayPrice"))
        (jsonGetD fs "formattedPrice") = .str s →
      extract_price fs = priceFromString s) ∧
    (isStrJ (pyOr (pyOr (jsonGetD fs "priceString") (jsonGetD fs "displayPrice"))
        (jsonGetD fs "formattedPrice")) = false → extract_price fs = none) ∧
    (∀ s, (cleanPriceChars s).any Char.isDigit = false → priceFromString s = none) ∧
    extract_price (JsonFields.ofList [("priceString", .str "$12.50")]) = some (12.50 : Rat) := by
  have he : extract_price fs =
      (match pyOr (pyOr (jsonGetD fs "priceString") (jsonGetD fs "displayPrice"))
          (jsonGetD fs "formattedPrice") with
        | .str s => priceFromString s
        | _ => none) := by
    unfold extract_price
    rw [h]
  refine ⟨?_, ?_, ?_, ?_⟩
  · intro s hs
    rw [he, hs]
  · intro hns
    rw [he]
    cases hc : pyOr (pyOr (jsonGetD fs "priceString") (jsonGetD fs "displayPrice"))
        (jsonGetD fs "formattedPrice") <;> simp_all [isStrJ]
  · intro s hnd
    unfold priceFromString
    cases he2 : (cleanPriceChars s).isEmpty
    · simp [he2, parseDotChars, hnd]
    · simp [he2]
  · have h2 : (12.50 : Rat) = mkRat 25 2 := by norm_num
    rw [h2]
    rfl

/-- C7 witness: the amended theorem applied at `{"priceString": "$12.50"}`. -/
theorem claim_C7_witness :
    extract_price (JsonFields.ofList [("priceString", .str "$12.50")]) =
      priceFromString "$12.50" :=
  (claim_C7_amended (JsonFields.ofList [("priceString", .str "$12.50")]) rfl).1 "$12.50" rfl

theorem time_pair_none (v : Json) :
    (parse_time_to_minutes v).1 = none ↔ (parse_time_to_minutes v).2 = none := by
  cases v with
  | str s =>
    simp only [parse_time_to_minutes]
    cases h : tryParseTimeString (pyStrip s.toList) <;> simp [h]
  | null => simp [parse_time_to_minutes]
  | bool b => simp [parse_time_to_minutes]
  | num q => simp [parse_time_to_minutes]
  | arr xs => simp [parse_time_to_minutes]
  | obj fs => simp [parse_time_to_minutes]

theorem time_str_fail (s : String) (h : tryParseTimeString (pyStrip s.toList) = none) :
    parse_time_to_minutes (.str s) = (none, none) := by
  simp only [parse_time_to_minutes]
  rw [h]

theorem sections_filterMap : (l : JsonList) →
    parse_hours_sections l = l.toList.filterMap
      (fun s => match s with | .obj sf => parse_hours_section sf | _ => none)
  | .nil => rfl
  | .cons x tl => by
    have ih := sections_filterMap tl
    cases x with
    | obj sf =>
      cases h : parse_hours_section sf <;>
        simp [parse_hours_sections, JsonList.toList, List.filterMap_cons, h, ih]
    | null => simp [parse_hours_sections, JsonList.toList, List.filterMap_cons, ih]
    | bool b => simp [parse_hours_sections, JsonList.toList, List.filterMap_cons, ih]
    | num q => simp [parse_hours_sections, JsonList.toList, List.filterMap_cons, ih]
    | str s => simp [parse_hours_sections, JsonList.toList, List.filterMap_cons, ih]
    | arr xs => simp [parse_hours_sections, JsonList.toList, List.filterMap_cons, ih]

theorem section_emitted_iff (sf : JsonFields) :
    (parse_hours_section sf).isSome ↔
      ((parse_time_to_minutes (pyOr (jsonGetD sf "start") (jsonGetD sf "openTime"))).1.isSome ∧
       (parse_time_to_minutes (pyOr (jsonGetD sf "end") (jsonGetD sf "closeTime"))).1.isSome) := by
  simp only [parse_hours_section]
  cases hs : parse_time_to_minutes (pyOr (jsonGetD sf "start") (jsonGetD sf "openTime")) with
  | mk sm sfm =>
    cases he : parse_time_to_minutes (pyOr (jsonGetD sf "end") (jsonGetD sf "closeTime")) with
    | mk em efm =>
      cases sm <;> cases em <;> simp

theorem section_title_default (sf : JsonFields)
    (h1 : jsonGet sf "sectionTitle" = none) (h2 : jsonGet sf "label" = none)
    (o : Json) (ho : parse_hours_section sf = some o) :
    ∃ ofs, o = .obj ofs ∧ jsonGetD ofs "sectionTitle" = .str "Open" := by
  simp only [parse_hours_section] at ho
  have ht : pyOr (pyOr (jsonGetD sf "sectionTitle") (jsonGetD sf "label")) (.str "Open") =
      .str "Open" := by
    simp [jsonGetD, h1, h2, pyOr, truthy]
  rw [ht] at ho
  cases hs : parse_time_to_minutes (pyOr (jsonGetD sf "start") (jsonGetD sf "openTime")) with
  | mk sm sfm =>
    cases he : parse_time_to_minutes (pyOr (jsonGetD sf "end") (jsonGetD sf "closeTime")) with
    | mk em efm =>
      rw [hs, he] at ho
      cases sm <;> cases em <;> simp at ho
      case some.some a b =>
        refine ⟨_, ho.symm, ?_⟩
        simp [jobj, JsonFields.ofList, jsonGetD, jsonGet]

theorem days_filterMap : (fs : JsonFields) →
    parse_hours_days fs = fs.toList.filterMap
      (fun p => match p.2 with
        | .arr secs =>
          match parse_hours_sections secs with
          | [] => none
          | ns => some (jobj [("dayRange", .str p.1), ("sectionHours", jarr ns)])
        | _ => none)
  | .nil => rfl
  | .cons day sections tl => by
    have ih := days_filterMap tl
    cases sections with
    | arr secs =>
      cases h : parse_hours_sections secs with
      | nil => simp [parse_hours_days, JsonFields.toList, List.filterMap_cons, h, ih]
      | cons a b => simp [parse_hours_days, JsonFields.toList, List.filterMap_cons, h, ih]
    | null => simp [parse_hours_days, JsonFields.toList, List.filterMap_cons, ih]
    | bool b => simp [parse_hours_days, JsonFields.toList, List.filterMap_cons, ih]
    | num q => simp [parse_hours_days, JsonFields.toList, List.filterMap_cons, ih]
    | str s => simp [parse_hours_days, JsonFields.toList, List.filterMap_cons, ih]
    | obj f => simp [parse_hours_days, JsonFields.toList, List.filterMap_cons, ih]

theorem pad2c_chars : ∀ n < 100, ((pad2c n).all (fun c => c.isDigit && !c.isWhitespace &&
    (c != ':') && (c != 'A') && (c != 'P') && (c.toUpper == c))) = true := by decide

theorem parse2_pad2c : ∀ n < 100, parse2 (pad2c n) = some n := by decide

theorem dropWhile_eq_self_of (p : Char → Bool) (l : List Char)
    (h : ∀ c ∈ l, p c = false) : l.dropWhile p = l := by
  cases l with
  | nil => rfl
  | cons x xs => simp [List.dropWhile, h x (List.mem_cons_self x xs)]

theorem pyStrip_eq_self (l : List Char) (h : ∀ c ∈ l, c.isWhitespace = false) :
    pyStrip l = l := by
  unfold pyStrip
  rw [dropWhile_eq_self_of _ l h,
    dropWhile_eq_self_of _ l.reverse (fun c hc => h c (List.mem_reverse.mp hc)),
    List.reverse_reverse]

theorem hasSub2_false (a b : Char) : ∀ l : List Char,
    (∀ c ∈ l, (c == a) = false) → hasSub2 a b l = false
  | [], _ => rfl
  | [x], _ => rfl
  | x :: y :: rest, h => by
    have hx := h x (by simp)
    have ih := hasSub2_false a b (y :: rest) (fun c hc => h c (List.mem_cons_of_mem x hc))
    simp [hasSub2, hx, ih]

theorem map_toUpper_self : ∀ l : List Char, (∀ c ∈ l, c.toUpper = c) →
    l.map Char.toUpper = l
  | [], _ => rfl
  | c :: cs, h => by
    have ih := map_toUpper_self cs (fun d hd => h d (List.mem_cons_of_mem c hd))
    simp [h c (by simp), ih]

theorem takeWhile_append_of (p : Char → Bool) (x : Char) (r : List Char)
    (hx : p x = false) : ∀ l : List Char, (∀ c ∈ l, p c = true) →
      (l ++ x :: r).takeWhile p = l ∧ (l ++ x :: r).dropWhile p = x :: r
  | [], _ => by simp [List.takeWhile, List.dropWhile, hx]
  | c :: cs, h => by
    have hc := h c (by simp)
    have ih := takeWhile_append_of p x r hx cs (fun d hd => h d (List.mem_cons_of_mem c hd))
    simp [List.takeWhile, List.dropWhile, hc, ih.1, ih.2]

/-- C8: CONFIRMED.  Re-parsing the canonical zero-padded 24-hour `HH:MM`
rendering of any `m` in `[0, 1439]` through the Time Parser yields `m`
back as the minutes component. -/
theorem claim_C8_roundtrip (m : Nat) (hm : m < 1440) :
    (parse_time_to_minutes (.str (fmt24 m))).1 = some (m : Int) := by
  have hd : m / 60 < 100 := by omega
  have hm60 : m % 60 < 100 := Nat.lt_of_lt_of_le (Nat.mod_lt m (by omega)) (by omega)
  have hall1 := List.all_eq_true.mp (pad2c_chars (m / 60) hd)
  have hall2 := List.all_eq_true.mp (pad2c_chars (m % 60) hm60)
  set L := pad2c (m / 60) ++ ':' :: pad2c (m % 60) with hLdef
  have hmem : ∀ c ∈ L, c.isDigit = true ∧ c.isWhitespace = false ∧ (c == ':') = false ∨ c = ':' := by
    intro c hc
    rw [hLdef] at hc
    rcases List.mem_append.mp hc with h1 | h1
    · have := hall1 c h1
      simp only [Bool.and_eq_true] at this
      exact Or.inl ⟨this.1.1.1.1.1, by simpa using this.1.1.1.1.2, by simpa using this.1.1.1.2⟩
    · rcases List.mem_cons.mp h1 with rfl | h2
      · exact Or.inr rfl
      · have := hall2 c h2
        simp only [Bool.and_eq_true] at this
        exact Or.inl ⟨this.1.1.1.1.1, by simpa using this.1.1.1.1.2, by simpa using this.1.1.1.2⟩
  have hws : ∀ c ∈ L, c.isWhitespace = false := by
    intro c hc
    rcases hmem c hc with ⟨_, h2, _⟩ | rfl
    · exact h2
    · decide
  have hup : ∀ c ∈ L, c.toUpper = c := by
    intro c hc
    rw [hLdef] at hc
    rcases List.mem_append.mp hc with h1 | h1
    · have := hall1 c h1
      simp only [Bool.and_eq_true] at this
      simpa using this.2
    · rcases List.mem_cons.mp h1 with rfl | h2
      · decide
      · have := hall2 c h2
        simp only [Bool.and_eq_true] at this
        simpa using this.2
  have hnA : ∀ c ∈ L, (c == 'A') = false := by
    intro c hc
    rw [hLdef] at hc
    rcases List.mem_append.mp hc with h1 | h1
    · have := hall1 c h1
      simp only [Bool.and_eq_true] at this
      simpa using this.1.1.2
    · rcases List.mem_cons.mp h1 with rfl | h2
      · decide
      · have := hall2 c h2
        simp only [Bool.and_eq_true] at this
        simpa using this.1.1.2
  have hnP : ∀ c ∈ L, (c == 'P') = false := by
    intro c hc
    rw [hLdef] at hc
    rcases List.mem_append.mp hc with h1 | h1
    · have := hall1 c h1
      simp only [Bool.and_eq_true] at this
      simpa using this.1.2
    · rcases List.mem_cons.mp h1 with rfl | h2
      · decide
      · have := hall2 c h2
        simp only [Bool.and_eq_true] at this
        simpa using this.1.2
  have hdig1 : ∀ c ∈ pad2c (m / 60), (fun c => c != ':') c = true := by
    intro c hc
    have := hall1 c hc
    simp only [Bool.and_eq_true] at this
    simpa using this.1.1.1.2
  have htk := takeWhile_append_of (fun c => c != ':') ':' (pad2c (m % 60)) (by decide)
    (pad2c (m / 60)) hdig1
  have h24 : parse24 L = some m := by
    simp only [parse24, parseHM]
    rw [hLdef, htk.1, htk.2]
    simp only [parse2_pad2c _ hd, parse2_pad2c _ hm60]
    have hc : (decide (0 ≤ m / 60) && decide (m / 60 ≤ 23) && decide (m % 60 ≤ 59)) = true := by
      simp
      omega
    simp only [hc, if_true]
    congr 1
    omega
  have hfin : tryParseTimeString L = some m := by
    simp only [tryParseTimeString]
    rw [map_toUpper_self _ hup, hasSub2_false 'A' 'M' _ hnA, hasSub2_false 'P' 'M' _ hnP]
    simpa using h24
  have hdata : (fmt24 m).toList = L := rfl
  simp only [parse_time_to_minutes, hdata, pyStrip_eq_self L hws, hfin]

/-- C6: CONFIRMED.  The Time Parser's minutes and formatted components are
absent exactly together (failure yields the `(None, None)` pair — the
embedding is total, so no exception escapes the boundary); any string
whose stripped form parses in neither the 12-hour nor the 24-hour form
yields `(None, None)`; a schedule section is emitted iff both its start
and its end parse, with `sectionTitle` defaulting to `"Open"` when both
title keys are absent; and a day is emitted only when at least one of its
sections survived (the day list is the filter-map keeping only days with a
nonempty normalized section list). -/
theorem claim_C6_failure_containment :
    (∀ v : Json, (parse_time_to_minutes v).1 = none ↔ (parse_time_to_minutes v).2 = none) ∧
    (∀ s : String, tryParseTimeString (pyStrip s.toList) = none →
      parse_time_to_minutes (.str s) = (none, none)) ∧
    (∀ sf : JsonFields, (parse_hours_section sf).isSome ↔
      ((parse_time_to_minutes (pyOr (jsonGetD sf "start") (jsonGetD sf "openTime"))).1.isSome ∧
       (parse_time_to_minutes (pyOr (jsonGetD sf "end") (jsonGetD sf "closeTime"))).1.isSome)) ∧
    (∀ sf : JsonFields, jsonGet sf "sectionTitle" = none → jsonGet sf "label" = none →
      ∀ o : Json, parse_hours_section sf = some o →
        ∃ ofs, o = .obj ofs ∧ jsonGetD ofs "sectionTitle" = .str "Open") ∧
    (∀ l : JsonList, parse_hours_sections l = l.toList.filterMap
      (fun s => match s with | .obj sf => parse_hours_section sf | _ => none)) ∧
    (∀ fs : JsonFields, parse_hours_days fs = fs.toList.filterMap
      (fun p => match p.2 with
        | .arr secs =>
          match parse_hours_sections secs with
          | [] => none
          | ns => some (jobj [("dayRange", .str p.1), ("sectionHours", jarr ns)])
        | _ => none)) :=
  ⟨time_pair_none, time_str_fail, section_emitted_iff, section_title_default,
    sections_filterMap, days_filterMap⟩

/-- C6 witness: the failure-containment theorem applied at the unparseable
string `"junk"` and at a concrete title-less section. -/
theorem claim_C6_witness :
    parse_time_to_minutes (.str "junk") = (none, none) ∧
    (∃ ofs, (jobj [("startTime", .num 240), ("endTime", .num 659), ("sectionTitle", .str "Open"),
        ("startTimeFormatted", .str "4:00 AM"), ("endTimeFormatted", .str "10:59 AM")]) =
        .obj ofs ∧ jsonGetD ofs "sectionTitle" = .str "Open") :=
  ⟨claim_C6_failure_containment.2.1 "junk" rfl,
   claim_C6_failure_containment.2.2.2.1
     (JsonFields.ofList [("start", .str "04:00"), ("end", .str "10:59")]) rfl rfl
     (jobj [("startTime", .num 240), ("endTime", .num 659), ("sectionTitle", .str "Open"),
        ("startTimeFormatted", .str "4:00 AM"), ("endTimeFormatted", .str "10:59 AM")]) rfl⟩

/-- C8 witness: the round-trip theorem applied at `m = 240`
(`fmt24 240 = "04:00"`). -/
theorem claim_C8_witness :
    240 < 1440 ∧ (parse_time_to_minutes (.str (fmt24 240))).1 = some ((240 : Nat) : Int) :=
  ⟨by decide, claim_C8_roundtrip 240 (by decide)⟩

/-- C9: CONFIRMED.  Every extractor is a total function of the input tree
(the embedding is total, so no `FieldResolutionError` can escape), and each
degrades to an absent/null/empty result: the location record's
`locationType` is always truthy (ultimately `"DEFAULT"`); with no
qualifying coordinate Object the location record is all-null; with no
resolvable schedule key `parse_hours` is empty; on any scalar input every
extractor returns its null/empty default; and the Document Assembler
produces a document for every payload — on a bare scalar payload the
all-null partial document. -/
theorem claim_C9_totality (j : Json) (keys : List String) (url : String) (inc : Bool) :
    truthy (parse_location j).locationType = true ∧
    ((preorderObjs j).find? locQualifies = none → parse_location j = nullLocationRecord) ∧
    (find_first_key j "hours" = .null → find_first_key j "openingHours" = .null →
      find_first_key j "schedule" = .null → find_first_key j "hoursOfOperation" = .null →
      parse_hours j = []) ∧
    (isScalarJ j = true → extract_menu_items j = [] ∧ find_first_value (some j) keys = .null ∧
      parse_hours j = [] ∧ parse_location j = nullLocationRecord) ∧
    (build_restaurant_document url j inc).url = url ∧
    build_restaurant_document url (.num 0) inc =
      { logoUrl := .null, name := .str "", categories := [], rating := .null,
        reviewCount := .null, currencyCode := .null, location := nullLocationRecord,
        phoneNumber := .null, uuid := .null, hours := [], url := url, menuItems := [] } := by
  refine ⟨?_, ?_, ?_, ?_, rfl, ?_⟩
  · have hh : ∀ x : Json, truthy (pyOr x (.str "DEFAULT")) = true := by
      have hd : truthy (.str "DEFAULT") = true := rfl
      intro x
      cases hx : truthy x <;> simp [pyOr, hx, hd]
    simpa [parse_location] using hh _
  · intro h
    simp [parse_location, loc_walk_eq_find, h, jsonGetD, jsonGet, pyOr, truthy,
      nullLocationRecord]
  · intro h1 h2 h3 h4
    simp [parse_hours, h1, parse_hours_rest, h2, h3, h4, pyOr, truthy]
  · intro hs
    cases j with
    | null => exact ⟨rfl, rfl, rfl, rfl⟩
    | bool b => exact ⟨rfl, rfl, rfl, rfl⟩
    | num q => exact ⟨rfl, rfl, rfl, rfl⟩
    | str s => exact ⟨rfl, rfl, rfl, rfl⟩
    | arr xs => simp [isScalarJ] at hs
    | obj fs => simp [isScalarJ] at hs
  · cases inc <;> rfl

/-- C9 witness: totality applied at the scalar payload `3`. -/
theorem claim_C9_witness :
    parse_location (.num 3) = nullLocationRecord ∧ parse_hours (.num 3) = [] ∧
    extract_menu_items (.num 3) = [] ∧
    (build_restaurant_document "u" (.num 3) true).url = "u" :=
  ⟨(claim_C9_totality (.num 3) ["a"] "u" true).2.1 rfl,
   ((claim_C9_totality (.num 3) ["a"] "u" true).2.2.2.1 rfl).2.2.1,
   ((claim_C9_totality (.num 3) ["a"] "u" true).2.2.2.1 rfl).1,
   (claim_C9_totality (.num 3) ["a"] "u" true).2.2.2.2.1⟩

/-- C10: CONFIRMED.  The assembled document's `name` is `""` (never null)
whenever the resolver's `name`/`title` result is falsy — absent (null) or
present-but-falsy (empty string, 0, false, empty containers) — while each
of the other resolver-backed top-level fields (`logoUrl`, `rating`,
`reviewCount`, `currencyCode`, `phoneNumber`, `uuid`) is null exactly when
its resolver returned null. -/
theorem claim_C10_name_default (payload : Json) (url : String) (inc : Bool) :
    (truthy (find_first_value ((guess_restaurant_node payload).map Json.obj)
        ["name", "title"]) = false →
      (build_restaurant_document url payload inc).name = .str "") ∧
    (find_first_value (some payload) ["logoUrl", "heroImage", "imageUrl"] = .null →
      (build_restaurant_document url payload inc).logoUrl = .null) ∧
    (find_first_value (some (nodeOrRoot (guess_restaurant_node payload) payload))
        ["rating", "averageRating"] = .null →
      (build_restaurant_document url payload inc).rating = .null) ∧
    (find_first_value (some (nodeOrRoot (guess_restaurant_node payload) payload))
        ["reviewCount", "ratingCount"] = .null →
      (build_restaurant_document url payload inc).reviewCount = .null) ∧
    (find_first_value (some (nodeOrRoot (guess_restaurant_node payload) payload))
        ["currencyCode", "currency"] = .null →
      (build_restaurant_document url payload inc).currencyCode = .null) ∧
    (find_first_value (some (nodeOrRoot (guess_restaurant_node payload) payload))
        ["phoneNumber", "phone", "contactPhone"] = .null →
      (build_restaurant_document url payload inc).phoneNumber = .null) ∧
    (find_first_value (some (nodeOrRoot (guess_restaurant_node payload) payload))
        ["uuid", "storeUuid", "restaurantUuid"] = .null →
      (build_restaurant_document url payload inc).uuid = .null) := by
  refine ⟨?_, ?_, ?_, ?_, ?_, ?_, ?_⟩ <;> intro h <;>
    simp [build_restaurant_document, pyOr, h]

/-- C10 witness: the payload `{"name": ""}` resolves `name` to the falsy
empty string, and every other resolver-backed field to null. -/
theorem claim_C10_witness :
    (build_restaurant_document "u" (jobj [("name", .str "")]) true).name = .str "" ∧
    (build_restaurant_document "u" (jobj [("name", .str "")]) true).logoUrl = .null ∧
    (build_restaurant_document "u" (jobj [("name", .str "")]) true).uuid = .null :=
  ⟨(claim_C10_name_default (jobj [("name", .str "")]) "u" true).1 rfl,
   (claim_C10_name_default (jobj [("name", .str "")]) "u" true).2.1 rfl,
   (claim_C10_name_default (jobj [("name", .str "")]) "u" true).2.2.2.2.2.2 rfl⟩
